import Mathlib

/-
Verification of the note-organizer single-page application
(src/notes_frontend/src/App.js).

The App component holds its state in React useState hooks: the note
collection, the selected note id, the sidebar flag, the search term, the
view mode and the two draft form fields.  Each event handler is embedded
below as a pure function on an explicit state record; timestamps
(JavaScript Date milliseconds) are modelled as naturals, and the clock
value observed by a handler is passed to it as an argument.
-/

/-- A note record as stored in the `notes` state array: an id string, a
title, a content body and two timestamps (naturals standing for the
millisecond clock behind `new Date()`). -/
structure Note where
  id : String
  title : String
  content : String
  createdAt : Nat
  updatedAt : Nat
deriving DecidableEq

/-- The `mode` state variable of App: `"view" | "create" | "edit"`. -/
inductive Mode where
  | view
  | create
  | edit
deriving DecidableEq

/-- The full state held by the App component (App.js lines 11-20). -/
structure AppState where
  notes : List Note
  selectedNoteId : Option String
  sidebarOpen : Bool
  searchTerm : String
  mode : Mode
  editTitle : String
  editContent : String
deriving DecidableEq

/-- JavaScript `String.prototype.trim`: drop whitespace from both ends. -/
def jsTrim (s : String) : String :=
  ⟨((s.data.dropWhile Char.isWhitespace).reverse.dropWhile Char.isWhitespace).reverse⟩

/-- JavaScript `String.prototype.toLowerCase` (restricted to the ASCII
letters, which covers every string literal in the application). -/
def jsToLower (s : String) : String :=
  ⟨s.data.map Char.toLower⟩

/-- Whether the pattern occurs at the head of the character list. -/
def listStarts : List Char → List Char → Bool
  | [], _ => true
  | _ :: _, [] => false
  | p :: ps, c :: cs => p == c && listStarts ps cs

/-- Whether the pattern occurs anywhere in the character list. -/
def listContains (pat : List Char) : List Char → Bool
  | [] => listStarts pat []
  | c :: cs => listStarts pat (c :: cs) || listContains pat cs

/-- JavaScript `String.prototype.includes`. -/
def strIncludes (s pat : String) : Bool :=
  listContains pat.data s.data

/-- The filter predicate inside `filteredNotes` (App.js lines 57-61): the
title or the content of the note contains the search term, each field
lowercased first. -/
def noteMatches (searchTerm : String) (note : Note) : Bool :=
  strIncludes (jsToLower note.title) (jsToLower searchTerm) ||
  strIncludes (jsToLower note.content) (jsToLower searchTerm)

/-- One insertion step of the stable sort realised by
`notes.sort(sortByRecent)` with the comparator of App.js lines 188-190:
`new Date(b.updatedAt) - new Date(a.updatedAt)` orders by `updatedAt`
descending and reports ties as equal, and the ECMAScript sort is stable,
so an element is placed in front of the first element whose `updatedAt`
does not exceed its own. -/
def insertByRecent (x : Note) : List Note → List Note
  | [] => [x]
  | h :: t => if h.updatedAt ≤ x.updatedAt then x :: h :: t else h :: insertByRecent x t

/-- The stable descending-by-`updatedAt` sort performed by
`sort(sortByRecent)` in `filteredNotes`. -/
def sortByRecent (l : List Note) : List Note :=
  l.foldr insertByRecent []

/-- The derived `filteredNotes` memo (App.js lines 54-63): with an empty
search term every note is sorted by recency; otherwise the notes matching
the term are sorted the same way. -/
def filteredNotes (s : AppState) : List Note :=
  if s.searchTerm = "" then sortByRecent s.notes
  else sortByRecent (s.notes.filter (noteMatches s.searchTerm))

/-- The derived `selectedNote` binding (App.js line 65):
`notes.find(n => n.id === selectedNoteId)`. -/
def selectedNote (s : AppState) : Option Note :=
  match s.selectedNoteId with
  | none => none
  | some sid => s.notes.find? (fun n => n.id == sid)

/-- `handleSelectNote` (App.js lines 68-74). -/
def handleSelectNote (s : AppState) (note : Note) : AppState :=
  { s with selectedNoteId := some note.id, mode := Mode.view,
           editTitle := note.title, editContent := note.content }

/-- `handleCreateNoteClick` (App.js lines 77-83); `width` is the value of
`window.innerWidth` at the moment of the click. -/
def handleCreateNoteClick (s : AppState) (width : Nat) : AppState :=
  { s with mode := Mode.create, editTitle := "", editContent := "",
           selectedNoteId := none,
           sidebarOpen := if width ≤ 768 then false else s.sidebarOpen }

/-- `handleEditNoteClick` (App.js lines 86-91). -/
def handleEditNoteClick (s : AppState) : AppState :=
  match selectedNote s with
  | none => s
  | some sel => { s with mode := Mode.edit, editTitle := sel.title, editContent := sel.content }

/-- `handleDeleteNoteClick` (App.js lines 94-100); `confirmed` is the
answer returned by the `window.confirm` prompt. -/
def handleDeleteNoteClick (s : AppState) (noteId : String) (confirmed : Bool) : AppState :=
  if confirmed then
    { s with notes := s.notes.filter (fun n => n.id != noteId),
             selectedNoteId := none, mode := Mode.view }
  else s

/-- `handleSaveNote` (App.js lines 103-136); `now` is the clock value
behind `Date.now()` and `new Date()` during the handler.  The result
pairs the new state with the alert message when one is raised. -/
def handleSaveNote (s : AppState) (now : Nat) : AppState × Option String :=
  if jsTrim s.editTitle = "" then
    (s, some "Note title cannot be empty")
  else
    match s.mode, selectedNote s with
    | Mode.edit, some sel =>
        ({ s with
             notes := s.notes.map (fun n =>
               if n.id = sel.id then
                 { n with title := s.editTitle, content := s.editContent, updatedAt := now }
               else n),
             selectedNoteId := some sel.id,
             mode := Mode.view }, none)
    | Mode.create, _ =>
        ({ s with
             notes := { id := "note_" ++ toString now, title := s.editTitle,
                        content := s.editContent, createdAt := now,
                        updatedAt := now } :: s.notes,
             selectedNoteId := some ("note_" ++ toString now),
             mode := Mode.view }, none)
    | _, _ => ({ s with mode := Mode.view }, none)

/-- `handleSidebarToggle` (App.js lines 139-141). -/
def handleSidebarToggle (s : AppState) : AppState :=
  { s with sidebarOpen := !s.sidebarOpen }

/-- `handleSearchChange` (App.js lines 144-146). -/
def handleSearchChange (s : AppState) (term : String) : AppState :=
  { s with searchTerm := term }

/-- The `onCancel` callback passed to MainContent (App.js line 170):
`() => setMode("view")`. -/
def handleCancel (s : AppState) : AppState :=
  { s with mode := Mode.view }

/-- The resize listener (App.js lines 24-26):
`setSidebarOpen(window.innerWidth > 768)`. -/
def handleResize (s : AppState) (width : Nat) : AppState :=
  { s with sidebarOpen := decide (768 < width) }

/-- The title field onChange handler of the note form (App.js line 296). -/
def setEditTitleField (s : AppState) (t : String) : AppState :=
  { s with editTitle := t }

/-- The content field onChange handler of the note form (App.js line 305). -/
def setEditContentField (s : AppState) (c : String) : AppState :=
  { s with editContent := c }

/-- The state after mount: the two seeded sample notes (App.js lines
32-51) with seed timestamps `t1` and `t2`, no selection, view mode, and
the sidebar flag initialised from the viewport width (App.js line 13). -/
def initialState (width t1 t2 : Nat) : AppState :=
  { notes :=
      [ { id := "note1", title := "Welcome to Note Organizer",
          content := "This is your first note. Start organizing your thoughts!",
          createdAt := t1, updatedAt := t1 },
        { id := "note2", title := "Features",
          content := "- Create, edit, delete notes\n- Search instantly\n- Beautiful, responsive UI",
          createdAt := t2, updatedAt := t2 } ],
    selectedNoteId := none,
    sidebarOpen := decide (768 < width),
    searchTerm := "",
    mode := Mode.view,
    editTitle := "",
    editContent := "" }

/-- A user or environment event, each carrying the ambient values the
corresponding handler reads (clock, viewport width, confirm answer,
field text). -/
inductive Event where
  | selectNote (note : Note)
  | createClick (width : Nat)
  | editClick
  | deleteClick (noteId : String) (confirmed : Bool)
  | saveClick (now : Nat)
  | cancelClick
  | sidebarToggle
  | resize (width : Nat)
  | searchChange (term : String)
  | titleInput (t : String)
  | contentInput (c : String)

/-- Dispatch one event to its handler; the save alert is a side channel
and is discarded here. -/
def step (s : AppState) (e : Event) : AppState :=
  match e with
  | Event.selectNote note => handleSelectNote s note
  | Event.createClick width => handleCreateNoteClick s width
  | Event.editClick => handleEditNoteClick s
  | Event.deleteClick noteId confirmed => handleDeleteNoteClick s noteId confirmed
  | Event.saveClick now => (handleSaveNote s now).1
  | Event.cancelClick => handleCancel s
  | Event.sidebarToggle => handleSidebarToggle s
  | Event.resize width => handleResize s width
  | Event.searchChange term => handleSearchChange s term
  | Event.titleInput t => setEditTitleField s t
  | Event.contentInput c => setEditContentField s c

/-- Run a sequence of events from a state, first event first. -/
def run (s : AppState) (es : List Event) : AppState :=
  es.foldl step s

theorem insertByRecent_perm (x : Note) (l : List Note) :
    List.Perm (insertByRecent x l) (x :: l) := by
  induction l with
  | nil => simp [insertByRecent]
  | cons h t ih =>
    by_cases hc : h.updatedAt ≤ x.updatedAt
    · simp [insertByRecent, hc]
    · simp only [insertByRecent, hc, if_false]
      exact (ih.cons h).trans (List.Perm.swap x h t)

theorem sortByRecent_perm (l : List Note) : List.Perm (sortByRecent l) l := by
  induction l with
  | nil => exact List.Perm.refl []
  | cons h t ih =>
    have : sortByRecent (h :: t) = insertByRecent h (sortByRecent t) := rfl
    rw [this]
    exact (insertByRecent_perm h (sortByRecent t)).trans (ih.cons h)

theorem insertByRecent_sorted (x : Note) (l : List Note)
    (hl : l.Pairwise (fun a b => b.updatedAt ≤ a.updatedAt)) :
    (insertByRecent x l).Pairwise (fun a b => b.updatedAt ≤ a.updatedAt) := by
  induction l with
  | nil => simp [insertByRecent]
  | cons h t ih =>
    rcases List.pairwise_cons.mp hl with ⟨hh, ht⟩
    by_cases hc : h.updatedAt ≤ x.updatedAt
    · simp only [insertByRecent, hc, if_true]
      refine List.pairwise_cons.mpr ⟨?_, hl⟩
      intro y hy
      rcases List.mem_cons.mp hy with rfl | hy
      · exact hc
      · exact le_trans (hh y hy) hc
    · simp only [insertByRecent, hc, if_false]
      refine List.pairwise_cons.mpr ⟨?_, ih ht⟩
      intro y hy
      have hmem : y = x ∨ y ∈ t := by
        simpa using (insertByRecent_perm x t).mem_iff.mp hy
      rcases hmem with rfl | hy
      · exact le_of_lt (lt_of_not_le hc)
      · exact hh y hy

theorem sortByRecent_sorted (l : List Note) :
    (sortByRecent l).Pairwise (fun a b => b.updatedAt ≤ a.updatedAt) := by
  induction l with
  | nil => simp [sortByRecent]
  | cons h t ih => exact insertByRecent_sorted h (sortByRecent t) ih

theorem sortByRecent_cons_of_max (x : Note) (l : List Note)
    (hmax : ∀ m ∈ l, m.updatedAt ≤ x.updatedAt) :
    sortByRecent (x :: l) = x :: sortByRecent l := by
  have hdef : sortByRecent (x :: l) = insertByRecent x (sortByRecent l) := rfl
  rw [hdef]
  cases hs : sortByRecent l with
  | nil => rfl
  | cons h t =>
    have hmem : h ∈ l := (sortByRecent_perm l).mem_iff.mp (hs ▸ List.mem_cons_self h t)
    have : h.updatedAt ≤ x.updatedAt := hmax h hmem
    simp [insertByRecent, this]


/-- C1: when the draft title trims to the empty string, a save request
raises the alert "Note title cannot be empty" — a message containing the
phrase "title cannot be empty" — and returns the state completely
unchanged: no note is created or modified, and the collection, the
selected note id and the mode (hence the open form) all stay as they
were. -/
theorem save_empty_title_rejected (s : AppState) (now : Nat)
    (h : jsTrim s.editTitle = "") :
    handleSaveNote s now = (s, some "Note title cannot be empty") ∧
    ∃ pre post : String,
      "Note title cannot be empty" = pre ++ "title cannot be empty" ++ post := by
  constructor
  · simp [handleSaveNote, h]
  · exact ⟨"Note ", "", rfl⟩

theorem save_empty_title_rejected_witness :
    jsTrim (initialState 500 0 0).editTitle = "" ∧
    (handleSaveNote (initialState 500 0 0) 5 =
        (initialState 500 0 0, some "Note title cannot be empty") ∧
      ∃ pre post : String,
        "Note title cannot be empty" = pre ++ "title cannot be empty" ++ post) :=
  ⟨by decide, save_empty_title_rejected (initialState 500 0 0) 5 (by decide)⟩

/-- C3 counterexample: in the seeded state with note1 selected, a
confirmed delete of the non-selected id "note2" does NOT leave the
selection untouched — the handler resets `selectedNoteId` to null
unconditionally. -/
theorem delete_unselected_clears_selection_cex :
    (run (initialState 1000 0 0)
        [Event.selectNote
            { id := "note1", title := "Welcome to Note Organizer",
              content := "This is your first note. Start organizing your thoughts!",
              createdAt := 0, updatedAt := 0 }]).selectedNoteId = some "note1" ∧
    ("note2" : String) ≠ "note1" ∧
    (handleDeleteNoteClick
        (run (initialState 1000 0 0)
          [Event.selectNote
              { id := "note1", title := "Welcome to Note Organizer",
                content := "This is your first note. Start organizing your thoughts!",
                createdAt := 0, updatedAt := 0 }])
        "note2" true).selectedNoteId = none := by
  refine ⟨rfl, by decide, rfl⟩

/-- C3 amended: a confirmed delete of id x removes exactly the notes
carrying id x, and unconditionally clears the selection and resets the
mode to viewing — also when x was not the selected note; all other state
fields are untouched, and a declined confirmation changes nothing at
all. -/
theorem delete_confirmed_spec (s : AppState) (x : String) :
    (∀ m, m ∈ (handleDeleteNoteClick s x true).notes ↔ m ∈ s.notes ∧ m.id ≠ x) ∧
    (handleDeleteNoteClick s x true).selectedNoteId = none ∧
    (handleDeleteNoteClick s x true).mode = Mode.view ∧
    (handleDeleteNoteClick s x true).searchTerm = s.searchTerm ∧
    (handleDeleteNoteClick s x true).sidebarOpen = s.sidebarOpen ∧
    (handleDeleteNoteClick s x true).editTitle = s.editTitle ∧
    (handleDeleteNoteClick s x true).editContent = s.editContent ∧
    handleDeleteNoteClick s x false = s := by
  refine ⟨?_, rfl, rfl, rfl, rfl, rfl, rfl, rfl⟩
  intro m
  simp [handleDeleteNoteClick, List.mem_filter, bne_iff_ne]

/-- C7: a cancel request from the create or edit form switches the mode
back to viewing and performs no store mutation: the note collection and
the selection are unchanged, so the draft fields are discarded in the
sense of the specification — they are never written back to any note. -/
theorem cancel_no_mutation (s : AppState)
    (hm : s.mode = Mode.create ∨ s.mode = Mode.edit) :
    (handleCancel s).mode = Mode.view ∧
    (handleCancel s).notes = s.notes ∧
    (handleCancel s).selectedNoteId = s.selectedNoteId :=
  ⟨rfl, rfl, rfl⟩

theorem cancel_no_mutation_witness :
    ((handleCreateNoteClick (initialState 1000 0 0) 1000).mode = Mode.create ∨
      (handleCreateNoteClick (initialState 1000 0 0) 1000).mode = Mode.edit) ∧
    ((handleCancel (handleCreateNoteClick (initialState 1000 0 0) 1000)).mode = Mode.view ∧
      (handleCancel (handleCreateNoteClick (initialState 1000 0 0) 1000)).notes =
        (handleCreateNoteClick (initialState 1000 0 0) 1000).notes ∧
      (handleCancel (handleCreateNoteClick (initialState 1000 0 0) 1000)).selectedNoteId =
        (handleCreateNoteClick (initialState 1000 0 0) 1000).selectedNoteId) :=
  ⟨Or.inl rfl,
    cancel_no_mutation (handleCreateNoteClick (initialState 1000 0 0) 1000) (Or.inl rfl)⟩

/-- C8: the sidebar flag starts true exactly when the viewport width
exceeds 768, every resize event recomputes it from the same rule
regardless of any earlier toggle, the toggle flips the current value,
and in particular at width 500 the sidebar starts closed, one toggle
opens it and a second closes it again. -/
theorem sidebar_visibility_spec :
    (∀ width t1 t2 : Nat,
        ((initialState width t1 t2).sidebarOpen = true ↔ 768 < width)) ∧
    (∀ (s : AppState) (width : Nat),
        ((handleResize s width).sidebarOpen = true ↔ 768 < width)) ∧
    (∀ s : AppState, (handleSidebarToggle s).sidebarOpen = !s.sidebarOpen) ∧
    (initialState 500 0 0).sidebarOpen = false ∧
    (handleSidebarToggle (initialState 500 0 0)).sidebarOpen = true ∧
    (handleSidebarToggle (handleSidebarToggle (initialState 500 0 0))).sidebarOpen = false := by
  refine ⟨?_, ?_, fun _ => rfl, by decide, by decide, by decide⟩
  · intro width t1 t2
    simp [initialState]
  · intro s width
    simp [handleResize]

/-- C9: entering create mode clears the selection — `selectedNoteId`
becomes null — in addition to clearing both draft fields and setting the
mode to creating; the note collection is not touched. -/
theorem create_click_clears_selection (s : AppState) (width : Nat) :
    (handleCreateNoteClick s width).selectedNoteId = none ∧
    (handleCreateNoteClick s width).editTitle = "" ∧
    (handleCreateNoteClick s width).editContent = "" ∧
    (handleCreateNoteClick s width).mode = Mode.create ∧
    (handleCreateNoteClick s width).notes = s.notes :=
  ⟨rfl, rfl, rfl, rfl, rfl⟩

/-- C10: a save request with a non-empty trimmed title issued in viewing
mode, or in editing mode when the selected id matches no note, creates
and modifies nothing: the collection and the selection are unchanged,
the mode is set to viewing, and no alert is raised. -/
theorem save_without_target_spec (s : AppState) (now : Nat)
    (ht : jsTrim s.editTitle ≠ "")
    (hm : s.mode = Mode.view ∨ (s.mode = Mode.edit ∧ selectedNote s = none)) :
    (handleSaveNote s now).1.notes = s.notes ∧
    (handleSaveNote s now).1.selectedNoteId = s.selectedNoteId ∧
    (handleSaveNote s now).1.mode = Mode.view ∧
    (handleSaveNote s now).2 = none := by
  rcases hm with hm | ⟨hm, hsel⟩
  · simp [handleSaveNote, ht, hm]
  · simp [handleSaveNote, ht, hm, hsel]

theorem save_without_target_spec_witness :
    jsTrim (setEditTitleField (initialState 1000 0 0) "X").editTitle ≠ "" ∧
    ((setEditTitleField (initialState 1000 0 0) "X").mode = Mode.view ∨
      ((setEditTitleField (initialState 1000 0 0) "X").mode = Mode.edit ∧
        selectedNote (setEditTitleField (initialState 1000 0 0) "X") = none)) ∧
    ((handleSaveNote (setEditTitleField (initialState 1000 0 0) "X") 5).1.notes =
        (setEditTitleField (initialState 1000 0 0) "X").notes ∧
      (handleSaveNote (setEditTitleField (initialState 1000 0 0) "X") 5).1.selectedNoteId =
        (setEditTitleField (initialState 1000 0 0) "X").selectedNoteId ∧
      (handleSaveNote (setEditTitleField (initialState 1000 0 0) "X") 5).1.mode = Mode.view ∧
      (handleSaveNote (setEditTitleField (initialState 1000 0 0) "X") 5).2 = none) :=
  ⟨by decide, Or.inl rfl,
    save_without_target_spec (setEditTitleField (initialState 1000 0 0) "X") 5
      (by decide) (Or.inl rfl)⟩

theorem map_id_of_update (l : List Note) (sel : Note) (tt cc : String) (now : Nat) :
    (l.map (fun n =>
        if n.id = sel.id then { n with title := tt, content := cc, updatedAt := now }
        else n)).map Note.id = l.map Note.id := by
  induction l with
  | nil => rfl
  | cons h t ih => by_cases hc : h.id = sel.id <;> simp [hc, ih]

/-- Freshness proviso for one event: a save that will create a note must
use a clock value whose derived id "note_" ++ now is not already carried
by some note; every other event is unconstrained. -/
def createsFreshId (s : AppState) (e : Event) : Prop :=
  match e with
  | Event.saveClick now =>
      s.mode = Mode.create → jsTrim s.editTitle ≠ "" →
        ("note_" ++ toString now) ∉ s.notes.map Note.id
  | _ => True

/-- The freshness proviso holds at every intermediate state of an event
sequence. -/
def freshRun : AppState → List Event → Prop
  | _, [] => True
  | s, e :: es => createsFreshId s e ∧ freshRun (step s e) es

theorem step_preserves_id_nodup (s : AppState) (e : Event)
    (hnd : (s.notes.map Note.id).Nodup) (hfresh : createsFreshId s e) :
    ((step s e).notes.map Note.id).Nodup := by
  cases e with
  | selectNote note => simpa [step, handleSelectNote] using hnd
  | createClick width => simpa [step, handleCreateNoteClick] using hnd
  | editClick =>
    cases hsel : selectedNote s with
    | none => simpa [step, handleEditNoteClick, hsel] using hnd
    | some sel => simpa [step, handleEditNoteClick, hsel] using hnd
  | deleteClick noteId confirmed =>
    cases confirmed with
    | false => simpa [step, handleDeleteNoteClick] using hnd
    | true =>
      have hsub : ((s.notes.filter (fun n => n.id != noteId)).map Note.id).Sublist
          (s.notes.map Note.id) :=
        List.Sublist.map Note.id (List.filter_sublist s.notes)
      simpa [step, handleDeleteNoteClick] using List.Nodup.sublist hsub hnd
  | saveClick now =>
    by_cases ht : jsTrim s.editTitle = ""
    · simpa [step, handleSaveNote, ht] using hnd
    · cases hm : s.mode with
      | view =>
        cases hsel : selectedNote s with
        | none => simpa [step, handleSaveNote, ht, hm, hsel] using hnd
        | some sel => simpa [step, handleSaveNote, ht, hm, hsel] using hnd
      | create =>
        have hfr : ("note_" ++ toString now) ∉ s.notes.map Note.id := by
          simpa [createsFreshId, hm, ht] using hfresh
        cases hsel : selectedNote s with
        | none =>
          simp only [step, handleSaveNote, ht, if_neg ht, hm, hsel, List.map_cons]
          exact List.nodup_cons.mpr ⟨hfr, hnd⟩
        | some sel =>
          simp only [step, handleSaveNote, ht, if_neg ht, hm, hsel, List.map_cons]
          exact List.nodup_cons.mpr ⟨hfr, hnd⟩
      | edit =>
        cases hsel : selectedNote s with
        | none => simpa [step, handleSaveNote, ht, hm, hsel] using hnd
        | some sel =>
          have h2 : ((s.notes.map (fun n =>
              if n.id = sel.id then
                { n with title := s.editTitle, content := s.editContent, updatedAt := now }
              else n)).map Note.id).Nodup := by
            rw [map_id_of_update]
            exact hnd
          simpa [step, handleSaveNote, hm, hsel, if_neg ht] using h2
  | cancelClick => simpa [step, handleCancel] using hnd
  | sidebarToggle => simpa [step, handleSidebarToggle] using hnd
  | resize width => simpa [step, handleResize] using hnd
  | searchChange term => simpa [step, handleSearchChange] using hnd
  | titleInput t => simpa [step, setEditTitleField] using hnd
  | contentInput c => simpa [step, setEditContentField] using hnd

theorem run_preserves_id_nodup (s : AppState) (es : List Event)
    (hnd : (s.notes.map Note.id).Nodup) (hf : freshRun s es) :
    ((run s es).notes.map Note.id).Nodup := by
  induction es generalizing s with
  | nil => exact hnd
  | cons e es ih =>
    exact ih (step s e) (step_preserves_id_nodup s e hnd hf.1) hf.2

/-- C2 amended: a create assigns the id "note_" ++ now derived from the
clock.  In every state reached from the seeded initial state by events
whose note-creating saves each use a clock value whose derived id is not
already present, any two distinct notes have distinct ids; without that
freshness proviso two creates in the same millisecond yield duplicate
ids (see the counterexample). -/
theorem reachable_ids_distinct (width t1 t2 : Nat) (es : List Event)
    (hf : freshRun (initialState width t1 t2) es) :
    ∀ a ∈ (run (initialState width t1 t2) es).notes,
      ∀ b ∈ (run (initialState width t1 t2) es).notes, a ≠ b → a.id ≠ b.id := by
  have hnd0 : ((initialState width t1 t2).notes.map Note.id).Nodup := by
    simp [initialState]
  have hnd := run_preserves_id_nodup (initialState width t1 t2) es hnd0 hf
  intro a ha b hb hab hid
  exact hab (List.inj_on_of_nodup_map hnd ha hb hid)

theorem reachable_ids_distinct_witness :
    freshRun (initialState 1000 0 0)
      [Event.createClick 1000, Event.titleInput "A", Event.saveClick 5,
        Event.createClick 1000, Event.titleInput "B", Event.saveClick 6] ∧
    (∀ a ∈ (run (initialState 1000 0 0)
        [Event.createClick 1000, Event.titleInput "A", Event.saveClick 5,
          Event.createClick 1000, Event.titleInput "B", Event.saveClick 6]).notes,
      ∀ b ∈ (run (initialState 1000 0 0)
        [Event.createClick 1000, Event.titleInput "A", Event.saveClick 5,
          Event.createClick 1000, Event.titleInput "B", Event.saveClick 6]).notes,
        a ≠ b → a.id ≠ b.id) := by
  have hf : freshRun (initialState 1000 0 0)
      [Event.createClick 1000, Event.titleInput "A", Event.saveClick 5,
        Event.createClick 1000, Event.titleInput "B", Event.saveClick 6] := by
    refine ⟨trivial, trivial, ?_, trivial, trivial, ?_, trivial⟩
    · intro _ _
      decide
    · intro _ _
      decide
  exact ⟨hf, reachable_ids_distinct 1000 0 0 _ hf⟩

/-- C2 counterexample: two creates with the same clock value (the same
millisecond) produce two distinct notes that share the id "note_5", so
the unconditional uniqueness claim fails on a reachable state. -/
theorem create_id_collision_cex :
    ¬ (∀ a ∈ (run (initialState 1000 0 0)
          [Event.createClick 1000, Event.titleInput "A", Event.saveClick 5,
            Event.createClick 1000, Event.titleInput "B", Event.saveClick 5]).notes,
        ∀ b ∈ (run (initialState 1000 0 0)
          [Event.createClick 1000, Event.titleInput "A", Event.saveClick 5,
            Event.createClick 1000, Event.titleInput "B", Event.saveClick 5]).notes,
          a ≠ b → a.id ≠ b.id) := by
  decide

theorem find_note_of_nodup (l : List Note) (n : Note)
    (hnd : (l.map Note.id).Nodup) (hn : n ∈ l) :
    l.find? (fun m => m.id == n.id) = some n := by
  induction l with
  | nil => cases hn
  | cons h t ih =>
    rw [List.map_cons] at hnd
    rcases List.nodup_cons.mp hnd with ⟨hhid, hndt⟩
    rcases List.mem_cons.mp hn with rfl | hn
    · rw [List.find?_cons_of_pos _ (by simp)]
    · have hne : h.id ≠ n.id := by
        intro he
        exact hhid (by rw [he]; exact List.mem_map.mpr ⟨n, hn, rfl⟩)
      rw [List.find?_cons_of_neg _ (by simp [hne])]
      exact ih hndt hn

/-- C4: a save in edit mode with note n selected and a non-empty trimmed
draft title replaces the title and content of n with the draft values
and stamps `updatedAt = now`, while keeping `id` and `createdAt` (the
replacement note literal carries them over), leaving every other note in
the collection, keeping n selected, and returning to view mode.  With
the draft equal to the current title and content this specialises to the
no-op edit that changes only `updatedAt`. -/
theorem update_note_spec (s : AppState) (n : Note) (now : Nat)
    (hnd : (s.notes.map Note.id).Nodup)
    (hmode : s.mode = Mode.edit)
    (hsel : s.selectedNoteId = some n.id)
    (hn : n ∈ s.notes)
    (ht : jsTrim s.editTitle ≠ "") :
    ({ n with title := s.editTitle, content := s.editContent, updatedAt := now }
        ∈ (handleSaveNote s now).1.notes) ∧
    (∀ m ∈ s.notes, m.id ≠ n.id → m ∈ (handleSaveNote s now).1.notes) ∧
    (∀ m ∈ (handleSaveNote s now).1.notes, m.id = n.id →
        m = { n with title := s.editTitle, content := s.editContent, updatedAt := now }) ∧
    (handleSaveNote s now).1.notes.length = s.notes.length ∧
    (handleSaveNote s now).1.selectedNoteId = some n.id ∧
    (handleSaveNote s now).1.mode = Mode.view := by
  have hfind : selectedNote s = some n := by
    simp only [selectedNote, hsel]
    exact find_note_of_nodup s.notes n hnd hn
  have hred : (handleSaveNote s now).1 =
      { s with
          notes := s.notes.map (fun m =>
            if m.id = n.id then
              { m with title := s.editTitle, content := s.editContent, updatedAt := now }
            else m),
          selectedNoteId := some n.id, mode := Mode.view } := by
    simp [handleSaveNote, if_neg ht, hmode, hfind]
  rw [hred]
  refine ⟨?_, ?_, ?_, ?_, rfl, rfl⟩
  · exact List.mem_map.mpr ⟨n, hn, by simp⟩
  · intro m hm hne
    exact List.mem_map.mpr ⟨m, hm, by simp [hne]⟩
  · intro m hm hid
    obtain ⟨m₀, hm₀, hfm⟩ := List.mem_map.mp hm
    by_cases h0 : m₀.id = n.id
    · have hmn : m₀ = n := List.inj_on_of_nodup_map hnd hm₀ hn h0
      subst hmn
      rw [if_pos h0] at hfm
      exact hfm.symm
    · rw [if_neg h0] at hfm
      exact absurd (by rw [hfm]; exact hid) h0
  · exact List.length_map s.notes _

def editWitnessState : AppState :=
  { initialState 1000 0 0 with
      mode := Mode.edit
      selectedNoteId := some "note2"
      editTitle := "New title"
      editContent := "New content" }

def seedNoteTwo : Note :=
  { id := "note2", title := "Features",
    content := "- Create, edit, delete notes\n- Search instantly\n- Beautiful, responsive UI",
    createdAt := 0, updatedAt := 0 }

theorem update_note_spec_witness :
    ((editWitnessState.notes.map Note.id).Nodup ∧
      editWitnessState.mode = Mode.edit ∧
      editWitnessState.selectedNoteId = some seedNoteTwo.id ∧
      seedNoteTwo ∈ editWitnessState.notes ∧
      jsTrim editWitnessState.editTitle ≠ "") ∧
    (({ seedNoteTwo with
          title := editWitnessState.editTitle
          content := editWitnessState.editContent
          updatedAt := 7 }
        ∈ (handleSaveNote editWitnessState 7).1.notes) ∧
      (∀ m ∈ editWitnessState.notes, m.id ≠ seedNoteTwo.id →
          m ∈ (handleSaveNote editWitnessState 7).1.notes) ∧
      (∀ m ∈ (handleSaveNote editWitnessState 7).1.notes, m.id = seedNoteTwo.id →
          m = { seedNoteTwo with
                title := editWitnessState.editTitle
                content := editWitnessState.editContent
                updatedAt := 7 }) ∧
      (handleSaveNote editWitnessState 7).1.notes.length = editWitnessState.notes.length ∧
      (handleSaveNote editWitnessState 7).1.selectedNoteId = some seedNoteTwo.id ∧
      (handleSaveNote editWitnessState 7).1.mode = Mode.view) :=
  ⟨⟨by decide, rfl, rfl, by decide, by decide⟩,
    update_note_spec editWitnessState seedNoteTwo 7
      (by decide) rfl rfl (by decide) (by decide)⟩

theorem filteredNotes_empty_search (s : AppState) (h : s.searchTerm = "") :
    filteredNotes s = sortByRecent s.notes := by
  simp [filteredNotes, h]

/-- C5: the visible list is sorted by `updatedAt` descending in every
state, with or without an active search filter; and a save in create
mode with a valid title and no active filter, at a clock value not
earlier than every existing `updatedAt`, puts the newly created note at
the head of the visible list. -/
theorem list_sorted_and_new_first :
    (∀ s : AppState,
        (filteredNotes s).Pairwise (fun a b => b.updatedAt ≤ a.updatedAt)) ∧
    (∀ (s : AppState) (now : Nat),
        s.mode = Mode.create → jsTrim s.editTitle ≠ "" → s.searchTerm = "" →
        (∀ m ∈ s.notes, m.updatedAt ≤ now) →
        (filteredNotes (handleSaveNote s now).1).head? =
          some { id := "note_" ++ toString now, title := s.editTitle,
                 content := s.editContent, createdAt := now, updatedAt := now }) := by
  constructor
  · intro s
    by_cases hq : s.searchTerm = "" <;> simp [filteredNotes, hq, sortByRecent_sorted]
  · intro s now hm ht hq hmax
    have hred : (handleSaveNote s now).1 =
        { s with
            notes := { id := "note_" ++ toString now, title := s.editTitle,
                       content := s.editContent, createdAt := now,
                       updatedAt := now } :: s.notes,
            selectedNoteId := some ("note_" ++ toString now), mode := Mode.view } := by
      cases hsel : selectedNote s <;> simp [handleSaveNote, if_neg ht, hm, hsel]
    rw [hred, filteredNotes_empty_search _ (by simpa using hq),
      sortByRecent_cons_of_max _ _ (by simpa using hmax)]
    rfl

theorem list_sorted_and_new_first_witness :
    ((handleCreateNoteClick (initialState 1000 0 0) 1000).mode = Mode.create ∧
      jsTrim (setEditTitleField (handleCreateNoteClick (initialState 1000 0 0) 1000) "T").editTitle ≠ "" ∧
      (setEditTitleField (handleCreateNoteClick (initialState 1000 0 0) 1000) "T").searchTerm = "" ∧
      (∀ m ∈ (setEditTitleField (handleCreateNoteClick (initialState 1000 0 0) 1000) "T").notes,
        m.updatedAt ≤ 5)) ∧
    (filteredNotes
        (handleSaveNote (setEditTitleField (handleCreateNoteClick (initialState 1000 0 0) 1000) "T") 5).1).head? =
      some { id := "note_" ++ toString 5,
             title := (setEditTitleField (handleCreateNoteClick (initialState 1000 0 0) 1000) "T").editTitle,
             content := (setEditTitleField (handleCreateNoteClick (initialState 1000 0 0) 1000) "T").editContent,
             createdAt := 5, updatedAt := 5 } :=
  ⟨⟨rfl, by decide, rfl, by decide⟩,
    list_sorted_and_new_first.2
      (setEditTitleField (handleCreateNoteClick (initialState 1000 0 0) 1000) "T") 5
      rfl (by decide) rfl (by decide)⟩

/-- C6 counterexample: with the empty query the visible list is the
collection re-sorted by `updatedAt` descending, not the collection in
its stored order — with seed timestamps 0 and 5 the stored order is
[note1, note2] but the visible list is [note2, note1]. -/
theorem filter_empty_query_reorders_cex :
    (initialState 1000 0 5).searchTerm = "" ∧
    filteredNotes (initialState 1000 0 5) ≠ (initialState 1000 0 5).notes := by
  refine ⟨rfl, by decide⟩

/-- C6 amended: the visible list selects exactly the notes whose title
or content contains the query as a case-insensitive substring (each
field tested independently); the empty query returns all notes — as a
permutation sorted by recency, not necessarily in the stored order —
and for every query the result draws only from the input notes. -/
theorem filter_spec (s : AppState) :
    (s.searchTerm = "" → List.Perm (filteredNotes s) s.notes) ∧
    (∀ n, n ∈ filteredNotes s ↔
        n ∈ s.notes ∧ (s.searchTerm = "" ∨ noteMatches s.searchTerm n = true)) ∧
    (∀ n, n ∈ filteredNotes s → n ∈ s.notes) := by
  by_cases hq : s.searchTerm = ""
  · refine ⟨fun _ => ?_, ?_, ?_⟩
    · simpa [filteredNotes, hq] using sortByRecent_perm s.notes
    · intro n
      constructor
      · intro hn
        have hn' : n ∈ s.notes :=
          (sortByRecent_perm s.notes).mem_iff.mp (by simpa [filteredNotes, hq] using hn)
        exact ⟨hn', Or.inl hq⟩
      · rintro ⟨hn, _⟩
        have := (sortByRecent_perm s.notes).mem_iff.mpr hn
        simpa [filteredNotes, hq] using this
    · intro n hn
      exact (sortByRecent_perm s.notes).mem_iff.mp (by simpa [filteredNotes, hq] using hn)
  · refine ⟨fun h => absurd h hq, ?_, ?_⟩
    · intro n
      constructor
      · intro hn
        have hn' : n ∈ s.notes.filter (noteMatches s.searchTerm) :=
          (sortByRecent_perm _).mem_iff.mp (by simpa [filteredNotes, hq] using hn)
        rcases List.mem_filter.mp hn' with ⟨h1, h2⟩
        exact ⟨h1, Or.inr h2⟩
      · rintro ⟨hn, hmatch | hmatch⟩
        · exact absurd hmatch hq
        · have hn' : n ∈ s.notes.filter (noteMatches s.searchTerm) :=
            List.mem_filter.mpr ⟨hn, hmatch⟩
          have := (sortByRecent_perm (s.notes.filter (noteMatches s.searchTerm))).mem_iff.mpr hn'
          simpa [filteredNotes, hq] using this
    · intro n hn
      have hn' : n ∈ s.notes.filter (noteMatches s.searchTerm) :=
        (sortByRecent_perm _).mem_iff.mp (by simpa [filteredNotes, hq] using hn)
      exact (List.mem_filter.mp hn').1

theorem filter_spec_witness :
    (initialState 1000 0 0).searchTerm = "" ∧
    List.Perm (filteredNotes (initialState 1000 0 0)) (initialState 1000 0 0).notes :=
  ⟨rfl, (filter_spec (initialState 1000 0 0)).1 rfl⟩
